import Mathlib

/-!
Verification of the now-playing renderer in `main.py`.

The program polls a radio-metadata endpoint, resolves album artwork, and
renders a fixed 320x240 "now playing" image.  This file gives a shallow
embedding of its text fitter, artwork resolver, compositor, change-detection
loop and metadata parsers, and proves the specified properties about them.

Modelling conventions:
- Python strings are `List Char`; `str.strip` / `str.upper` are modelled on
  the characters the claims exercise (ASCII whitespace / ASCII letters).
- A loaded font is modelled by its measurement function: the width that the
  PIL call `draw.textbbox((0, 0), text, font)[2]` reports for a string,
  as a function `List Char → Nat` (for a fixed font object) or
  `Nat → List Char → Nat` (size-indexed, for the size-fitting loop).
- PIL rasters are modelled symbolically by the `Img` type below, with
  `Img.width` / `Img.height` implementing PIL's dimension semantics.
- Exact rational arithmetic (`ℚ`) stands in for Python floats.
-/

/-- The ellipsis marker `"..."` appended by `truncate_text` (main.py line 174). -/
def ellipsis : List Char := ['.', '.', '.']

/-- The body of the `while` loop of `truncate_text` (main.py lines 173-178),
with the loop made structural on a fuel argument.  Python:

  while draw.textbbox((0, 0), text, font=font)[2] > max_width and len(text) > 3:
      text = text[:-4] + "..."
      if len(text) <= 3 and len(original_text) > 3:
          text = original_text[:3] + "..."
          break

Each iteration that does not break replaces `text` (of length `n > 3`) by a
string of length `n - 4 + 3 = n - 1`, so `text.length` iterations always
suffice; `truncateLoop_eq_specLoop` below proves this fuel adequate by
comparing with the directly recursive `truncateSpecLoop`. -/
def truncateLoop (m : List Char → Nat) (max_width : Nat) (original : List Char) :
    Nat → List Char → List Char
  | 0, text => text
  | fuel + 1, text =>
    if max_width < m text ∧ 3 < text.length then
      if (text.take (text.length - 4) ++ ellipsis).length ≤ 3 ∧ 3 < original.length then
        original.take 3 ++ ellipsis
      else
        truncateLoop m max_width original fuel (text.take (text.length - 4) ++ ellipsis)
    else text

/-- `truncate_text(text, font, max_width)` from main.py lines 167-180: the
font is represented by its measurement function `m`. -/
def truncate_text (m : List Char → Nat) (max_width : Nat) (text : List Char) : List Char :=
  truncateLoop m max_width text text.length text

/-- The same loop written by direct recursion on `text.length` (used as the
spec-side formulation for the claim that `truncate_text` implements exactly
the described algorithm, and to justify the fuel in `truncateLoop`). -/
def truncateSpecLoop (m : List Char → Nat) (maxWidth : Nat) (original text : List Char) :
    List Char :=
  if _h : maxWidth < m text ∧ 3 < text.length then
    if (text.take (text.length - 4) ++ ellipsis).length ≤ 3 ∧ 3 < original.length then
      original.take 3 ++ ellipsis
    else
      truncateSpecLoop m maxWidth original (text.take (text.length - 4) ++ ellipsis)
  else text
termination_by text.length
decreasing_by
  simp only [List.length_append, List.length_take, ellipsis, List.length_cons,
    List.length_nil]
  omega

/-- The truncation algorithm as the spec words it ("truncateWithEllipsis"):
while measured width exceeds the maximum and the string is longer than 3
characters, drop the last 4 characters and append an ellipsis; if reduced to
at most 3 characters while the original was longer, the result is the
original's first 3 characters plus the ellipsis and the loop stops. -/
def truncateWithEllipsis (m : List Char → Nat) (maxWidth : Nat) (text : List Char) :
    List Char :=
  truncateSpecLoop m maxWidth text text

/-- `adjust_font_size(text, font, max_width)` from main.py lines 141-164,
abstracted over the size-indexed measurement function `m` and returning the
chosen size (the code returns the font object; its `.size` is what the main
loop uses).  Python: measure at the current size; while the width exceeds
`max_width` and the size exceeds 1, decrement the size by one and re-measure. -/
def adjust_font_size (m : Nat → List Char → Nat) (text : List Char) (max_width : Nat) :
    Nat → Nat
  | 0 => 0
  | 1 => 1
  | n + 2 =>
    if max_width < m (n + 2) text then adjust_font_size m text max_width (n + 1)
    else n + 2

/-- `INITIAL_FONT_SIZE` (main.py line 38). -/
def INITIAL_FONT_SIZE : Nat := 20

/-- `TARGET_WIDTH` (main.py line 31). -/
def TARGET_WIDTH : Nat := 320

/-- `TARGET_HEIGHT` (main.py line 32). -/
def TARGET_HEIGHT : Nat := 240

/-- `LOGO_BLOCK_SIZE` (main.py line 33). -/
def LOGO_BLOCK_SIZE : Nat := 55

/-- `TEXT_BG_HEIGHT` (main.py line 34). -/
def TEXT_BG_HEIGHT : Nat := 55

/-- `TEXT_BG_Y` (main.py line 35). -/
def TEXT_BG_Y : Nat := TARGET_HEIGHT - TEXT_BG_HEIGHT

/-- `max_text_width` of the main loop (main.py lines 353-357):
`(TARGET_WIDTH - 5) - (LOGO_BLOCK_SIZE + 10)`. -/
def max_text_width : Nat := (TARGET_WIDTH - 5) - (LOGO_BLOCK_SIZE + 10)

/-- `final_size` of the main loop (main.py lines 360-364): fit artist and
title independently from the initial size and take the minimum. -/
def final_size (m : Nat → List Char → Nat) (artistname songname : List Char)
    (w : Nat) : Nat :=
  min (adjust_font_size m artistname w INITIAL_FONT_SIZE)
    (adjust_font_size m songname w INITIAL_FONT_SIZE)

/-- Python `str.strip()` on the ASCII whitespace the titles contain:
drop whitespace from both ends. -/
def pyStrip (s : List Char) : List Char :=
  ((s.dropWhile Char.isWhitespace).reverse.dropWhile Char.isWhitespace).reverse

/-- Python `str.upper()` restricted to ASCII (main.py line 368). -/
def pyUpper (s : List Char) : List Char := s.map Char.toUpper

/-- Python `s.split(sep, 1)` when `sep` occurs in `s`: `some (before, after)`
split at the first occurrence; `none` when `sep` does not occur. -/
def split1 (sep : Char) : List Char → Option (List Char × List Char)
  | [] => none
  | c :: rest =>
    if c = sep then some ([], rest)
    else
      match split1 sep rest with
      | some p => some (c :: p.1, p.2)
      | none => none

/-- Python `s.split(sep)[0]`: the part before the first occurrence of `sep`,
or all of `s` when `sep` does not occur. -/
def split_head (sep : Char) (s : List Char) : List Char :=
  match split1 sep s with
  | some p => p.1
  | none => s

/-- The Icecast branch of `fetch_now_playing_with_retries` (main.py lines
207-212): if the source title contains a hyphen, split on the first hyphen
into stripped artist and song name; otherwise the whole title is the song
name and the artist stays empty. -/
def parse_icecast_title (full_title : List Char) : List Char × List Char :=
  match split1 '-' full_title with
  | some p => (pyStrip p.1, pyStrip p.2)
  | none => ([], full_title)

/-- The Azuracast branch of `fetch_now_playing_with_retries` (main.py lines
219-223): song name is `title.split("(")[0].strip()`, the artist is passed
through, and the `art` field is used directly as the artwork URL. -/
def parse_azuracast_song (title artistname : List Char) (art : Option (List Char)) :
    List Char × List Char × Option (List Char) :=
  (pyStrip (split_head '(' title), artistname, art)

/-- Python's `round` (round half to even, as applied by Pillow's
`Image._crop` to the crop box: `x0, y0, x1, y1 = map(int, map(round, box))`),
on exact rationals. -/
def pyround (q : ℚ) : ℤ :=
  if q - ⌊q⌋ < 1 / 2 then ⌊q⌋
  else if 1 / 2 < q - ⌊q⌋ then ⌊q⌋ + 1
  else if ⌊q⌋ % 2 = 0 then ⌊q⌋ else ⌊q⌋ + 1

/-- Image modes appearing in main.py (`convert("RGBA")`, `convert("RGB")`). -/
inductive PMode where
  | RGB
  | RGBA
deriving DecidableEq

/-- Symbolic model of the PIL rasters built by main.py: leaves are
freshly-allocated canvases (`Image.new`) and decoded source rasters of known
dimensions; the other constructors are the PIL operations the program uses.
In-place `ImageDraw` calls (`rectangle`, `text`) become the value-passing
`drawRect` / `drawText`. -/
inductive Img where
  | new (w h : Nat)
  | raw (w h : Nat)
  | resize (i : Img) (w h : Nat)
  | crop (i : Img) (x0 y0 x1 y1 : ℚ)
  | gaussianBlur (i : Img) (radius : ℚ)
  | paste (base top : Img) (x y : Int)
  | alphaComposite (a b : Img)
  | convert (i : Img) (mode : PMode)
  | drawRect (i : Img) (x0 y0 x1 y1 : ℚ) (r g b a : Nat)
  | drawText (i : Img) (x y : Int) (text : List Char) (size : Nat)
deriving DecidableEq

/-- Pixel width of a raster under PIL's dimension semantics: `new`/`resize`
set it, `crop` takes the rounded box width (Pillow rounds each coordinate
with Python `round`, then subtracts), and blur, paste (in-place on the
base), alpha compositing, mode conversion and drawing keep it. -/
def Img.width : Img → Nat
  | .new w _ => w
  | .raw w _ => w
  | .resize _ w _ => w
  | .crop _ x0 _ x1 _ => (pyround x1 - pyround x0).toNat
  | .gaussianBlur i _ => i.width
  | .paste base _ _ _ => base.width
  | .alphaComposite a _ => a.width
  | .convert i _ => i.width
  | .drawRect i _ _ _ _ _ _ _ _ => i.width
  | .drawText i _ _ _ _ => i.width

/-- Pixel height of a raster; same conventions as `Img.width`. -/
def Img.height : Img → Nat
  | .new _ h => h
  | .raw _ h => h
  | .resize _ _ h => h
  | .crop _ _ y0 _ y1 => (pyround y1 - pyround y0).toNat
  | .gaussianBlur i _ => i.height
  | .paste base _ _ _ => base.height
  | .alphaComposite a _ => a.height
  | .convert i _ => i.height
  | .drawRect i _ _ _ _ _ _ _ _ => i.height
  | .drawText i _ _ _ _ => i.height

/-- The blurred cover-fit background of the main loop (main.py lines
285-301), transcribed with exact rational arithmetic for the float ratios;
`int(...)` on the positive floats is `Int.floor`. -/
def background (a : Img) : Img :=
  let img_ratio : ℚ := (a.width : ℚ) / (a.height : ℚ)
  let output_ratio : ℚ := (TARGET_WIDTH : ℚ) / (TARGET_HEIGHT : ℚ)
  if img_ratio > output_ratio then
    let new_height := TARGET_HEIGHT
    let new_width := (⌊(new_height : ℚ) * img_ratio⌋).toNat
    let resized_art := Img.resize a new_width new_height
    let left : ℚ := ((new_width : ℚ) - (TARGET_WIDTH : ℚ)) / 2
    let cropped := Img.crop resized_art left 0 (left + (TARGET_WIDTH : ℚ)) (TARGET_HEIGHT : ℚ)
    Img.gaussianBlur cropped 8
  else
    let new_width := TARGET_WIDTH
    let new_height := (⌊(new_width : ℚ) / img_ratio⌋).toNat
    let resized_art := Img.resize a new_width new_height
    let top : ℚ := ((new_height : ℚ) - (TARGET_HEIGHT : ℚ)) / 2
    let cropped := Img.crop resized_art 0 top (TARGET_WIDTH : ℚ) (top + (TARGET_HEIGHT : ℚ))
    Img.gaussianBlur cropped 8

/-- The background step as the spec words it: compare the artwork's
width/height ratio to 320/240; if relatively wider, scale to height 240
preserving aspect ratio and center-crop horizontally to width 320; if
relatively taller (or equal), scale to width 320 preserving aspect ratio and
center-crop vertically to height 240; Gaussian-blur the result with radius 8.
Spec-side definition, to be compared with `background`. -/
def backgroundSpec (a : Img) : Img :=
  if (320 : ℚ) / 240 < (a.width : ℚ) / (a.height : ℚ) then
    let sw := (⌊(a.width : ℚ) * 240 / (a.height : ℚ)⌋).toNat
    let scaled := Img.resize a sw 240
    let left : ℚ := ((sw : ℚ) - 320) / 2
    Img.gaussianBlur (Img.crop scaled left 0 (left + 320) 240) 8
  else
    let sh := (⌊(a.height : ℚ) * 320 / (a.width : ℚ)⌋).toNat
    let scaled := Img.resize a 320 sh
    let top : ℚ := ((sh : ℚ) - 240) / 2
    Img.gaussianBlur (Img.crop scaled 0 top 320 (top + 240)) 8

/-- Pasting the blurred background onto the canvas at (0, 0) (main.py line
302); with no artwork the canvas is left as-is (line 303-304). -/
def paste_background (base : Img) (art : Option Img) : Img :=
  match art with
  | some a => Img.paste base (background a) 0 0
  | none => base

/-- `load_logo` (main.py lines 51-66): the file parameter is `none` when the
logo file is missing or fails to load; otherwise the raster is converted to
RGBA and resized to the 55x55 logo block. -/
def load_logo (logo_file : Option Img) : Option Img :=
  match logo_file with
  | none => none
  | some l => some (Img.resize (Img.convert l PMode.RGBA) LOGO_BLOCK_SIZE LOGO_BLOCK_SIZE)

/-- Outcome of the HTTP fetch and decode of the artwork URL, the external
event `fetch_album_art` reacts to. -/
inductive FetchResult where
  | success (img : Img)
  | httpError (status : Nat)
  | networkError
  | decodeError
deriving DecidableEq

/-- Whether the fetch produced a decoded raster. -/
def FetchResult.isSuccess : FetchResult → Bool
  | .success _ => true
  | _ => false

/-- `fetch_album_art` (main.py lines 236-255): empty/absent URL gives
`none`; a 200-status response that decodes gives the raster converted to
RGBA; every other outcome (non-200 status, request exception, decode
exception) is caught and gives `none`. -/
def fetch_album_art (album_art_url : Option (List Char)) (outcome : FetchResult) :
    Option Img :=
  match album_art_url with
  | none => none
  | some u =>
    if u = [] then none
    else
      match outcome with
      | .success img => some (Img.convert img PMode.RGBA)
      | _ => none

/-- The album-art fallback logic of the main loop (main.py lines 272-281):
fetch only when a URL is present (truthy), and substitute the fallback logo
raster whenever no artwork was obtained. -/
def resolve_art (album_art_url : Option (List Char)) (outcome : FetchResult)
    (fallback_logo : Option Img) : Option Img :=
  let fetched :=
    match album_art_url with
    | none => none
    | some u => if u = [] then none else fetch_album_art (some u) outcome
  match fetched with
  | some a => some a
  | none => fallback_logo

/-- The per-render compositing pipeline of the main loop (main.py lines
266-396): black 320x240 canvas, blurred background, thumbnail border and
140x140 thumbnail, bottom-bar overlay with logo, alpha compositing, text
fitting/truncation and the two stroked text lines, and the RGB conversion
for JPEG output paths.  `album_art_full_res` is the artwork after the
fallback substitution; `logo_file` is the logo raster on disk; `jpeg` tells
whether the output path ends in `.jpg`/`.jpeg`. -/
def compose (m : Nat → List Char → Nat) (artistname songname : List Char)
    (album_art_full_res : Option Img) (logo_file : Option Img) (jpeg : Bool) : Img :=
  let output0 := Img.new TARGET_WIDTH TARGET_HEIGHT
  let output1 := paste_background output0 album_art_full_res
  let album_art_thumbnail_size : Nat := 140
  let border_size : Nat := 2
  let available_top_space : Nat := TEXT_BG_Y
  let thumb_x : Int := ((TARGET_WIDTH - album_art_thumbnail_size : Nat) / 2 : Nat)
  let thumb_y : Int := ((available_top_space - album_art_thumbnail_size : Nat) / 2 : Nat)
  let output2 := Img.drawRect output1 (thumb_x - border_size) (thumb_y - border_size)
    (thumb_x + album_art_thumbnail_size + border_size)
    (thumb_y + album_art_thumbnail_size + border_size) 55 56 52 180
  let output3 :=
    match album_art_full_res with
    | some a =>
      Img.paste output2 (Img.resize a album_art_thumbnail_size album_art_thumbnail_size)
        thumb_x thumb_y
    | none => output2
  let overlay0 := Img.new TARGET_WIDTH TARGET_HEIGHT
  let overlay1 := Img.drawRect overlay0 0 (TEXT_BG_Y : ℚ) (TARGET_WIDTH : ℚ)
    (TARGET_HEIGHT : ℚ) 0 0 0 180
  let overlay2 :=
    match load_logo logo_file with
    | some logo_img => Img.paste overlay1 logo_img 0 (TEXT_BG_Y : Int)
    | none => overlay1
  let output4 := Img.alphaComposite output3 overlay2
  let fs := final_size m artistname songname max_text_width
  let artistname_display := truncate_text (m fs) max_text_width (pyUpper artistname)
  let songname_display := truncate_text (m fs) max_text_width songname
  let text_x : Int := (LOGO_BLOCK_SIZE + 10 : Nat)
  let output5 := Img.drawText output4 text_x (TEXT_BG_Y + 19 : Nat) artistname_display fs
  let output6 := Img.drawText output5 text_x (TEXT_BG_Y + 38 : Nat) songname_display fs
  if jpeg then Img.convert output6 PMode.RGB else output6

/-- One iteration of the change-detection and save logic of the main loop
(main.py lines 258-264 and 398-404): `fetched` is the song name from the
poller (`none` when polling failed), `save_ok` tells whether the render and
`output_image.save` ran without an exception, `last` is `last_songname`.
Returns (rendered, written, new `last_songname`); on an exception the outer
`except` leaves `last_songname` unchanged. -/
def loop_iter (fetched : Option (List Char)) (save_ok : Bool) (last : List Char) :
    Bool × Bool × List Char :=
  match fetched with
  | some songname =>
    if songname ≠ [] ∧ (songname ≠ last ∨ last = []) then
      if save_ok then (true, true, songname) else (true, false, last)
    else (false, false, last)
  | none => (false, false, last)

/-- When the current string has at most 3 characters the loop guard fails
and `truncateLoop` returns it unchanged, whatever the fuel. -/
lemma truncateLoop_short (m : List Char → Nat) (w : Nat) (orig : List Char)
    (fuel : Nat) (text : List Char) (h : text.length ≤ 3) :
    truncateLoop m w orig fuel text = text := by
  cases fuel with
  | zero => rfl
  | succ n =>
    have hguard : ¬(w < m text ∧ 3 < text.length) := fun hc => absurd hc.2 (by omega)
    simp [truncateLoop, hguard]

/-- When the current string already fits, the loop guard fails and
`truncateLoop` returns it unchanged, whatever the fuel. -/
lemma truncateLoop_fits (m : List Char → Nat) (w : Nat) (orig : List Char)
    (fuel : Nat) (text : List Char) (h : ¬w < m text) :
    truncateLoop m w orig fuel text = text := by
  cases fuel with
  | zero => rfl
  | succ n =>
    have hguard : ¬(w < m text ∧ 3 < text.length) := fun hc => absurd hc.1 h
    simp [truncateLoop, hguard]

/-- Every result of the truncation loop has length at most
`max text.length 6`: the shrinking step shortens the string and the escape
branch produces the 6-character `original[:3] + "..."`. -/
lemma truncateLoop_length_le (m : List Char → Nat) (w : Nat) (orig : List Char) :
    ∀ fuel text, (truncateLoop m w orig fuel text).length ≤ max text.length 6 := by
  intro fuel
  induction fuel with
  | zero => intro text; exact le_max_left _ _
  | succ n ih =>
    intro text
    rw [truncateLoop]
    split_ifs with h1 h2
    · simp only [List.length_append, List.length_take, ellipsis, List.length_cons,
        List.length_nil]
      omega
    · have := ih (text.take (text.length - 4) ++ ellipsis)
      simp only [List.length_append, List.length_take, ellipsis, List.length_cons,
        List.length_nil] at this ⊢
      omega
    · exact le_max_left _ _

/-- C2 (amended): `truncate_text` returns a string of length at most the
maximum of the input's length and 6 (the escape branch can return the
6-character `original[:3] + "..."` for overflowing inputs of length 4 or 5),
and applying `truncate_text` to its own output returns that output unchanged
whenever the output's measured width is within the maximum width. -/
theorem C2_truncate_length_idempotence (m : List Char → Nat) (w : Nat) (s : List Char) :
    (truncate_text m w s).length ≤ max s.length 6 ∧
      (m (truncate_text m w s) ≤ w →
        truncate_text m w (truncate_text m w s) = truncate_text m w s) := by
  constructor
  · exact truncateLoop_length_le m w s s.length s
  · intro h
    exact truncateLoop_fits m w _ _ _ (not_lt.mpr h)

/-- A concrete font for the counterexample: the glyph `W` measures 4 pixels
wide and every other character 1 pixel, widths adding up. -/
def charWidth (c : Char) : Nat := if c = 'W' then 4 else 1

/-- Width measurement under `charWidth`. -/
def demoMeasure (t : List Char) : Nat := (t.map charWidth).sum

/-- A font in which every character measures 1 pixel wide. -/
def lenMeasure : List Char → Nat := List.length

/-- C2 (counterexample): with the font `demoMeasure` and maximum width 14,
the 4-character input "WWWW" (16 pixels wide) truncates to "WWW..." of
length 6 > 4, and re-truncating "WWW..." (15 pixels) yields "WW..." — so
neither the length bound nor idempotence of the claim holds as stated. -/
theorem C2_counterexample :
    ¬((truncate_text demoMeasure 14 ['W', 'W', 'W', 'W']).length ≤
        (['W', 'W', 'W', 'W'] : List Char).length ∧
      truncate_text demoMeasure 14 (truncate_text demoMeasure 14 ['W', 'W', 'W', 'W']) =
        truncate_text demoMeasure 14 ['W', 'W', 'W', 'W']) := by
  decide

/-- Witness for the amended C2 at a concrete input. -/
theorem C2_witness :
    (truncate_text lenMeasure 10 ['a', 'b']).length ≤ max (['a', 'b'] : List Char).length 6 ∧
      truncate_text lenMeasure 10 (truncate_text lenMeasure 10 ['a', 'b']) =
        truncate_text lenMeasure 10 ['a', 'b'] :=
  ⟨(C2_truncate_length_idempotence lenMeasure 10 ['a', 'b']).1,
    (C2_truncate_length_idempotence lenMeasure 10 ['a', 'b']).2 (by decide)⟩

/-- The shrinking step of the truncation loop shortens the string by exactly
one character. -/
lemma truncate_step_length (text : List Char) (h : 3 < text.length) :
    (text.take (text.length - 4) ++ ellipsis).length = text.length - 1 := by
  simp only [List.length_append, List.length_take, ellipsis, List.length_cons,
    List.length_nil]
  omega

/-- Fuel adequacy: with fuel at least the current string's length, the
fueled loop agrees with the directly recursive formulation. -/
lemma truncateLoop_eq_specLoop (m : List Char → Nat) (w : Nat) (orig : List Char) :
    ∀ fuel text, text.length ≤ fuel →
      truncateLoop m w orig fuel text = truncateSpecLoop m w orig text := by
  intro fuel
  induction fuel with
  | zero =>
    intro text ht
    have hnil : text = [] := List.length_eq_zero.mp (Nat.le_zero.mp ht)
    subst hnil
    rw [truncateSpecLoop]
    simp [truncateLoop]
  | succ n ih =>
    intro text ht
    rw [truncateSpecLoop, truncateLoop]
    split_ifs with h1 h2
    · rfl
    · exact ih _ (by have := truncate_step_length text h1.2; omega)
    · rfl

/-- C4: `truncate_text` implements exactly the specified algorithm
(`truncateWithEllipsis`): shrink by dropping the last 4 characters and
appending "..." while the measured width exceeds the maximum and the string
is longer than 3 characters, and stop with the original's first 3 characters
plus "..." if the string reaches length at most 3 while the original was
longer. -/
theorem C4_truncate_algorithm (m : List Char → Nat) (w : Nat) (text : List Char) :
    truncate_text m w text = truncateWithEllipsis m w text :=
  truncateLoop_eq_specLoop m w text text.length text le_rfl

/-- C10: an input of length at most 3 is returned unchanged, for every font
and maximum width — even when its measured width exceeds the maximum. -/
theorem C10_short_text_unchanged (m : List Char → Nat) (w : Nat) (text : List Char)
    (h : text.length ≤ 3) : truncate_text m w text = text :=
  truncateLoop_short m w text text.length text h

/-- Witness for C10: "abc" is 3 pixels wide under `lenMeasure`, wider than
the maximum width 0, yet is returned unchanged. -/
theorem C10_witness :
    0 < lenMeasure ['a', 'b', 'c'] ∧
      truncate_text lenMeasure 0 ['a', 'b', 'c'] = ['a', 'b', 'c'] :=
  ⟨by decide, C10_short_text_unchanged lenMeasure 0 ['a', 'b', 'c'] (by decide)⟩

/-- The size-fitting loop started at a positive size returns a size between
1 and its starting size: it only ever decrements, and stops at 1. -/
lemma adjust_font_size_bounds (m : Nat → List Char → Nat) (t : List Char) (w : Nat) :
    ∀ s : Nat, 1 ≤ adjust_font_size m t w (s + 1) ∧ adjust_font_size m t w (s + 1) ≤ s + 1 := by
  intro s
  induction s with
  | zero => simp [adjust_font_size]
  | succ n ih =>
    by_cases h : w < m (n + 2) t
    · simp only [adjust_font_size, if_pos h]
      exact ⟨ih.1, le_trans ih.2 (by omega)⟩
    · simp [adjust_font_size, h]

/-- C3: the uniform font size of the main loop is the minimum of the two
independently fitted per-string sizes, and always lies in [1, 20]. -/
theorem C3_uniform_font_size (m : Nat → List Char → Nat)
    (artistname songname : List Char) (w : Nat) (hw : 0 < w) :
    final_size m artistname songname w =
      min (adjust_font_size m artistname w 20) (adjust_font_size m songname w 20) ∧
      1 ≤ final_size m artistname songname w ∧ final_size m artistname songname w ≤ 20 := by
  have h1 := adjust_font_size_bounds m artistname w 19
  have h2 := adjust_font_size_bounds m songname w 19
  exact ⟨rfl, le_min h1.1 h2.1, le_trans (min_le_left _ _) h1.2⟩

/-- A size-dependent font for witnesses: each character is as many pixels
wide as the point size. -/
def sizeLen : Nat → List Char → Nat := fun sz t => sz * t.length

/-- Witness for C3 at a concrete font and strings. -/
theorem C3_witness :
    final_size sizeLen ['A'] ['B', 'C'] 5 =
      min (adjust_font_size sizeLen ['A'] 5 20) (adjust_font_size sizeLen ['B', 'C'] 5 20) ∧
      1 ≤ final_size sizeLen ['A'] ['B', 'C'] 5 ∧
        final_size sizeLen ['A'] ['B', 'C'] 5 ≤ 20 :=
  C3_uniform_font_size sizeLen ['A'] ['B', 'C'] 5 (by decide)

/-- The composited output is 320 pixels wide, whatever the inputs. -/
lemma compose_width (m : Nat → List Char → Nat) (artistname songname : List Char)
    (art logo_file : Option Img) (jpeg : Bool) :
    (compose m artistname songname art logo_file jpeg).width = 320 := by
  cases art <;> cases logo_file <;> cases jpeg <;> rfl

/-- The composited output is 240 pixels tall, whatever the inputs. -/
lemma compose_height (m : Nat → List Char → Nat) (artistname songname : List Char)
    (art logo_file : Option Img) (jpeg : Bool) :
    (compose m artistname songname art logo_file jpeg).height = 240 := by
  cases art <;> cases logo_file <;> cases jpeg <;> rfl

/-- C1: for every pair of now-playing strings and every artwork raster of
arbitrary dimensions (or none at all), the composited output image is
exactly 320x240. -/
theorem C1_output_dims (m : Nat → List Char → Nat) (artistname songname : List Char)
    (art logo_file : Option Img) (jpeg : Bool) :
    (compose m artistname songname art logo_file jpeg).width = 320 ∧
      (compose m artistname songname art logo_file jpeg).height = 240 :=
  ⟨compose_width m artistname songname art logo_file jpeg,
    compose_height m artistname songname art logo_file jpeg⟩

/-- C5: when the artwork fetch fails in any way (non-200 HTTP status,
network error, decode error), the fallback logo raster is used in place of
the artwork, and the render still proceeds to a 320x240 output. -/
theorem C5_artwork_fallback (m : Nat → List Char → Nat)
    (artistname songname url : List Char) (outcome : FetchResult) (fb : Img)
    (logo_file : Option Img) (jpeg : Bool) (hfail : outcome.isSuccess = false) :
    resolve_art (some url) outcome (some fb) = some fb ∧
      (compose m artistname songname (resolve_art (some url) outcome (some fb))
          logo_file jpeg).width = 320 ∧
      (compose m artistname songname (resolve_art (some url) outcome (some fb))
          logo_file jpeg).height = 240 := by
  have hres : resolve_art (some url) outcome (some fb) = some fb := by
    cases outcome with
    | success i => simp [FetchResult.isSuccess] at hfail
    | httpError c => by_cases hu : url = [] <;> simp [resolve_art, fetch_album_art, hu]
    | networkError => by_cases hu : url = [] <;> simp [resolve_art, fetch_album_art, hu]
    | decodeError => by_cases hu : url = [] <;> simp [resolve_art, fetch_album_art, hu]
  refine ⟨hres, ?_, ?_⟩
  · rw [hres]; exact compose_width m artistname songname (some fb) logo_file jpeg
  · rw [hres]; exact compose_height m artistname songname (some fb) logo_file jpeg

/-- Witness for C5: an HTTP 404 on the artwork URL falls back to the logo
and the render produces a 320x240 image. -/
theorem C5_witness :
    resolve_art (some ['u']) (FetchResult.httpError 404) (some (Img.raw 10 10)) =
        some (Img.raw 10 10) ∧
      (compose sizeLen [] []
          (resolve_art (some ['u']) (FetchResult.httpError 404) (some (Img.raw 10 10)))
          none false).width = 320 ∧
      (compose sizeLen [] []
          (resolve_art (some ['u']) (FetchResult.httpError 404) (some (Img.raw 10 10)))
          none false).height = 240 :=
  C5_artwork_fallback sizeLen [] [] ['u'] (FetchResult.httpError 404) (Img.raw 10 10)
    none false rfl

/-- Python `round` of an integer is that integer. -/
lemma pyround_intCast (n : ℤ) : pyround ((n : ℤ) : ℚ) = n := by
  norm_num [pyround, Int.floor_intCast]

/-- Python `round` commutes with adding an even integer: the fractional
part is unchanged and the parity of the floor is preserved. -/
lemma pyround_add_int (q : ℚ) (n : ℤ) (hn : n % 2 = 0) :
    pyround (q + (n : ℚ)) = pyround q + n := by
  have hf : ⌊q + (n : ℚ)⌋ = ⌊q⌋ + n := Int.floor_add_int q n
  unfold pyround
  rw [hf]
  have hfrac : q + (n : ℚ) - ((⌊q⌋ + n : ℤ) : ℚ) = q - ((⌊q⌋ : ℤ) : ℚ) := by
    push_cast
    ring
  rw [hfrac]
  split_ifs <;> omega

/-- pyround (q + 320) = pyround q + 320. -/
lemma pyround_add_320 (q : ℚ) : pyround (q + 320) = pyround q + 320 := by
  have h := pyround_add_int q 320 (by norm_num)
  push_cast at h
  exact h

/-- pyround (q + 240) = pyround q + 240. -/
lemma pyround_add_240 (q : ℚ) : pyround (q + 240) = pyround q + 240 := by
  have h := pyround_add_int q 240 (by norm_num)
  push_cast at h
  exact h

/-- pyround 0 = 0. -/
lemma pyround_zero : pyround 0 = 0 := by
  have h := pyround_intCast 0
  push_cast at h
  exact h

/-- pyround 240 = 240. -/
lemma pyround_240 : pyround 240 = 240 := by
  have h := pyround_intCast 240
  push_cast at h
  exact h

/-- pyround 320 = 320. -/
lemma pyround_320 : pyround 320 = 320 := by
  have h := pyround_intCast 320
  push_cast at h
  exact h

/-- The cover-fit background always comes out exactly 320 pixels wide:
in the wider branch the crop box spans exactly 320 horizontally (rounding
both box edges shifts them identically), and in the taller branch the box
is 0..320. -/
lemma background_width (a : Img) : (background a).width = 320 := by
  unfold background
  dsimp only
  split_ifs with h
  · show (pyround _ - pyround _).toNat = 320
    rw [show ((TARGET_WIDTH : ℚ)) = (320 : ℚ) by norm_num [TARGET_WIDTH]]
    rw [pyround_add_320]
    omega
  · show (pyround _ - pyround _).toNat = 320
    rw [show ((TARGET_WIDTH : ℚ)) = (320 : ℚ) by norm_num [TARGET_WIDTH]]
    rw [pyround_320, pyround_zero]
    rfl

/-- The cover-fit background always comes out exactly 240 pixels tall. -/
lemma background_height (a : Img) : (background a).height = 240 := by
  unfold background
  dsimp only
  split_ifs with h
  · show (pyround _ - pyround _).toNat = 240
    rw [show ((TARGET_HEIGHT : ℚ)) = (240 : ℚ) by norm_num [TARGET_HEIGHT]]
    rw [pyround_240, pyround_zero]
    rfl
  · show (pyround _ - pyround _).toNat = 240
    rw [show ((TARGET_HEIGHT : ℚ)) = (240 : ℚ) by norm_num [TARGET_HEIGHT]]
    rw [pyround_add_240]
    omega

/-- The code's background computation coincides with the spec's wording of
cover-fit: same ratio comparison, same scaled dimensions, same centered
crop, same blur radius. -/
lemma background_eq_backgroundSpec (a : Img) : background a = backgroundSpec a := by
  unfold background backgroundSpec
  dsimp only
  rw [show ((TARGET_WIDTH : ℚ)) = (320 : ℚ) by norm_num [TARGET_WIDTH]]
  rw [show ((TARGET_HEIGHT : ℚ)) = (240 : ℚ) by norm_num [TARGET_HEIGHT]]
  rw [show (240 : ℚ) * ((a.width : ℚ) / (a.height : ℚ)) =
        (a.width : ℚ) * 240 / (a.height : ℚ) by ring]
  rw [show (320 : ℚ) / ((a.width : ℚ) / (a.height : ℚ)) =
        (a.height : ℚ) * 320 / (a.width : ℚ) by
      rw [div_div_eq_mul_div]; ring]
  rfl

/-- C6: the background is produced by cover-fit exactly as specified — the
width/height ratio is compared against 320/240; the relatively wider artwork
is scaled to height 240 and center-cropped horizontally, the relatively
taller (or equal-ratio) artwork is scaled to width 320 and center-cropped
vertically; the crop always yields 320x240; the result is Gaussian-blurred
with radius 8 and pasted onto the canvas at (0, 0). -/
theorem C6_cover_fit_background (a base : Img) :
    background a = backgroundSpec a ∧
      (background a).width = 320 ∧ (background a).height = 240 ∧
      paste_background base (some a) = Img.paste base (backgroundSpec a) 0 0 := by
  refine ⟨background_eq_backgroundSpec a, background_width a, background_height a, ?_⟩
  simp [paste_background, background_eq_backgroundSpec a]

/-- C7: a fetched title equal to the previously accepted (non-empty) title
causes no render and no write; an empty title causes no render attempt; and
the stored last-title value changes only when the save succeeded. -/
theorem C7_change_detection (last t : List Char) (save_ok : Bool) :
    (t ≠ [] → t = last → loop_iter (some t) save_ok last = (false, false, last)) ∧
      loop_iter (some []) save_ok last = (false, false, last) ∧
      ∀ fetched : Option (List Char),
        (loop_iter fetched save_ok last).2.2 ≠ last →
          (loop_iter fetched save_ok last).2.1 = true := by
  refine ⟨?_, ?_, ?_⟩
  · intro hne heq
    subst heq
    simp [loop_iter, hne]
  · simp [loop_iter]
  · intro fetched hne
    cases fetched with
    | none => exact absurd rfl hne
    | some s =>
      by_cases hc : s ≠ [] ∧ (s ≠ last ∨ last = [])
      · cases save_ok with
        | true => simp [loop_iter, hc]
        | false => exact absurd (by simp [loop_iter, hc]) hne
      · exact absurd (by simp [loop_iter, hc]) hne

/-- Witness for C7: with `last = "x"`, polling "x" again renders nothing and
writes nothing, polling "" renders nothing, and a change of the stored title
implies a successful write. -/
theorem C7_witness :
    loop_iter (some ['x']) true ['x'] = (false, false, ['x']) ∧
      loop_iter (some []) true ['x'] = (false, false, ['x']) ∧
      ((loop_iter (some ['y']) true ['x']).2.2 ≠ ['x'] →
        (loop_iter (some ['y']) true ['x']).2.1 = true) :=
  ⟨(C7_change_detection ['x'] ['x'] true).1 (by decide) rfl,
    (C7_change_detection ['x'] ['x'] true).2.1,
    (C7_change_detection ['x'] ['x'] true).2.2 (some ['y'])⟩

/-- When the separator occurs in the string, `split1` splits at its first
occurrence: the part before is the longest separator-free prefix and the
part after is everything past that first occurrence. -/
lemma split1_eq_of_mem (sep : Char) :
    ∀ s : List Char, sep ∈ s →
      split1 sep s = some (s.takeWhile (· ≠ sep), (s.dropWhile (· ≠ sep)).drop 1) := by
  intro s
  induction s with
  | nil => intro h; simp at h
  | cons c rest ih =>
    intro h
    by_cases hc : c = sep
    · subst hc
      simp [split1, List.takeWhile_cons, List.dropWhile_cons]
    · have hmem : sep ∈ rest := by
        rcases List.mem_cons.mp h with h1 | h1
        · exact absurd h1.symm hc
        · exact h1
      simp [split1, hc, ih hmem, List.takeWhile_cons, List.dropWhile_cons, Ne.symm]

/-- C8: an Icecast source title containing a hyphen is split on the first
hyphen, the part before becoming the artist and the part after becoming the
song title, each with surrounding whitespace stripped. -/
theorem C8_icecast_split (full_title : List Char) (h : '-' ∈ full_title) :
    parse_icecast_title full_title =
      (pyStrip (full_title.takeWhile (· ≠ '-')),
        pyStrip ((full_title.dropWhile (· ≠ '-')).drop 1)) := by
  simp [parse_icecast_title, split1_eq_of_mem '-' full_title h]

/-- The scenario title "Daft Punk - One More Time". -/
def djTitle : List Char :=
  ['D', 'a', 'f', 't', ' ', 'P', 'u', 'n', 'k', ' ', '-', ' ',
    'O', 'n', 'e', ' ', 'M', 'o', 'r', 'e', ' ', 'T', 'i', 'm', 'e']

/-- Witness for C8: the scenario title parses to artist "Daft Punk" and
song "One More Time". -/
theorem C8_witness :
    parse_icecast_title djTitle =
      (['D', 'a', 'f', 't', ' ', 'P', 'u', 'n', 'k'],
        ['O', 'n', 'e', ' ', 'M', 'o', 'r', 'e', ' ', 'T', 'i', 'm', 'e']) :=
  (C8_icecast_split djTitle (by decide)).trans (by decide)

/-- `split_head` is the longest separator-free prefix. -/
lemma split_head_eq_takeWhile (sep : Char) :
    ∀ s : List Char, split_head sep s = s.takeWhile (· ≠ sep) := by
  intro s
  induction s with
  | nil => rfl
  | cons c rest ih =>
    by_cases hc : c = sep
    · subst hc
      simp [split_head, split1, List.takeWhile_cons]
    · cases hsr : split1 sep rest with
      | none =>
        have ih' : ∀ x ∈ rest, ¬x = sep := by
          simpa [split_head, hsr] using ih.symm
        simp [split_head, split1, hc, hsr, List.takeWhile_cons]
        rw [eq_comm]
        simpa using ih'
      | some p =>
        have ih' : p.1 = rest.takeWhile (· ≠ sep) := by
          simpa [split_head, hsr] using ih
        simp [split_head, split1, hc, hsr, List.takeWhile_cons]
        simpa using ih'

/-- C9: on the Azuracast backend the parsed song title is the portion of the
reported title before the first "(" with surrounding whitespace stripped,
and the reported art field is passed through directly as the artwork URL. -/
theorem C9_azuracast_parse (title artistname : List Char) (art : Option (List Char)) :
    (parse_azuracast_song title artistname art).1 =
        pyStrip (title.takeWhile (· ≠ '(')) ∧
      (parse_azuracast_song title artistname art).2.2 = art := by
  refine ⟨?_, rfl⟩
  simp [parse_azuracast_song, split_head_eq_takeWhile]
